import Mathlib

/-
Verification development for the pytracer rendering core.

The Python sources are shallowly embedded: machine floats become exact real
numbers (ℝ), fallible operations (raising code paths, out-of-range list
indexing) become Option-valued functions, and the numpy special values
(±inf, nan) that the AABB slab test manipulates are modelled by an explicit
datatype with IEEE comparison rules.  Python object identity (used by the
refraction container bookkeeping) is modelled by an `oid` field on shapes.

Source files embedded below:
  core/math/vectors.py, core/math/matrices.py, core/color.py,
  core/rays/ray.py, core/rays/intersection.py, core/rays/intersections.py,
  core/materials/pattern/pattern.py, core/patterns/*.py,
  core/cpu/materials/material.py (the repository's only `lit` and the only
  Material carrying transparency/ior, which core/scene.py uses),
  core/lights/light.py, core/utils.py, core/objects/shapes/shape.py,
  core/cpu/objects/shapes/sphere.py, core/objects/shapes/cylinder.py,
  core/rays/computation.py, core/scene.py,
  core/cpu/objects/shapes/shape.py, core/cpu/objects/shapes/group.py.
-/

namespace PyTracer

noncomputable section

open Classical

/-- Modelled from the spec: the module `core.constants` / `core.cpu.constants`
is not under src/; the spec fixes ε ≈ 1.0e-4 for geometric tolerances. -/
def EPSILON : ℝ := 1 / 10000

/-- numpy's `np.isclose(a, 0.0)` absolute tolerance (atol = 1e-8; the relative
term vanishes against 0). -/
def NP_ATOL : ℝ := 1 / 100000000

/-- core/math/vectors.py `Vector3` (the x, y, z payload; float32 becomes ℝ). -/
@[ext]
structure Vector3 where
  x : ℝ
  y : ℝ
  z : ℝ

/-- core/math/vectors.py `Point3`. -/
@[ext]
structure Point3 where
  x : ℝ
  y : ℝ
  z : ℝ

def Vector3.zero : Vector3 := ⟨0, 0, 0⟩

def Vector3.add (a b : Vector3) : Vector3 := ⟨a.x + b.x, a.y + b.y, a.z + b.z⟩

def Vector3.sub (a b : Vector3) : Vector3 := ⟨a.x - b.x, a.y - b.y, a.z - b.z⟩

def Vector3.neg (a : Vector3) : Vector3 := ⟨-a.x, -a.y, -a.z⟩

def Vector3.smul (a : Vector3) (s : ℝ) : Vector3 := ⟨a.x * s, a.y * s, a.z * s⟩

def Vector3.dot (a b : Vector3) : ℝ := a.x * b.x + a.y * b.y + a.z * b.z

def Vector3.cross (a b : Vector3) : Vector3 :=
  ⟨a.y * b.z - a.z * b.y, a.z * b.x - a.x * b.z, a.x * b.y - a.y * b.x⟩

def Vector3.sqrMagnitude (a : Vector3) : ℝ := a.x * a.x + a.y * a.y + a.z * a.z

def Vector3.magnitude (a : Vector3) : ℝ := Real.sqrt a.sqrMagnitude

/-- `Vector3.normalized` (and the in-place `normalize`, which produces the same
value): zero vector when the magnitude is 0, otherwise scale by 1/magnitude. -/
def Vector3.normalized (a : Vector3) : Vector3 :=
  if a.magnitude = 0 then Vector3.zero
  else ⟨a.x * (1 / a.magnitude), a.y * (1 / a.magnitude), a.z * (1 / a.magnitude)⟩

/-- `Vector3.reflect`: the source normalizes the incoming normal first. -/
def Vector3.reflect (v normal : Vector3) : Vector3 :=
  let n := normal.normalized
  let two_dot := 2 * v.dot n
  ⟨v.x - two_dot * n.x, v.y - two_dot * n.y, v.z - two_dot * n.z⟩

def Point3.sub (a b : Point3) : Vector3 := ⟨a.x - b.x, a.y - b.y, a.z - b.z⟩

def Point3.addVec (p : Point3) (v : Vector3) : Point3 := ⟨p.x + v.x, p.y + v.y, p.z + v.z⟩

def Point3.subVec (p : Point3) (v : Vector3) : Point3 := ⟨p.x - v.x, p.y - v.y, p.z - v.z⟩

def Point3.toVector (p : Point3) : Vector3 := ⟨p.x, p.y, p.z⟩

/-- core/color.py `Color`: rgb channels; the constructor clamps every channel
to [0,1] (`__post_init__`).  The alpha channel is constant 1 on every code
path the scene uses and is omitted. -/
@[ext]
structure Color where
  r : ℝ
  g : ℝ
  b : ℝ

def clamp01 (v : ℝ) : ℝ := max 0 (min 1 v)

/-- Building a `Color(...)` in Python clamps each channel (`__post_init__`). -/
def Color.make (r g b : ℝ) : Color := ⟨clamp01 r, clamp01 g, clamp01 b⟩

def Color.black : Color := Color.make 0 0 0

/-- Hadamard product (Python `Color * Color`, via `Point3.__mul__`). -/
def Color.hadamard (a b : Color) : Color := ⟨a.r * b.r, a.g * b.g, a.b * b.b⟩

/-- Scalar product (Python `Color * s`); no clamping happens here. -/
def Color.scale (a : Color) (s : ℝ) : Color := ⟨a.r * s, a.g * s, a.b * s⟩

/-- Componentwise sum; no clamping happens here. -/
def Color.add (a b : Color) : Color := ⟨a.r + b.r, a.g + b.g, a.b + b.b⟩

/-- Componentwise difference (Python `Color - Color`). -/
def Color.sub (a b : Color) : Color := ⟨a.r - b.r, a.g - b.g, a.b - b.b⟩

/-- core/math/matrices.py `Matrix2` (row-major `data`). -/
@[ext]
structure Matrix2 where
  data : Fin 2 → Fin 2 → ℝ

/-- core/math/matrices.py `Matrix3`. -/
@[ext]
structure Matrix3 where
  data : Fin 3 → Fin 3 → ℝ

/-- core/math/matrices.py `Matrix4`. -/
@[ext]
structure Matrix4 where
  data : Fin 4 → Fin 4 → ℝ

def Matrix2.determinant (m : Matrix2) : ℝ :=
  m.data 0 0 * m.data 1 1 - m.data 1 0 * m.data 0 1

/-- `Matrix2.inverse` raises `MatrixError` when the determinant is 0; the
raising path is embedded as `none`. -/
def Matrix2.inverse (m : Matrix2) : Option Matrix2 :=
  let det := m.determinant
  if det = 0 then none
  else some ⟨fun i j =>
    (1 / det) * (fun i j =>
      if i = (0 : Fin 2) ∧ j = 0 then m.data 1 1
      else if i = 0 ∧ j = 1 then -(m.data 0 1)
      else if i = 1 ∧ j = 0 then -(m.data 1 0)
      else m.data 0 0) i j⟩

/-- `Matrix3.submatrix(row, column)`: drop one row and one column; the index
masks `[i for i in range(3) if i != row]` are `Fin.succAbove`. -/
def Matrix3.submatrix (m : Matrix3) (row col : Fin 3) : Matrix2 :=
  ⟨fun r c => m.data (row.succAbove r) (col.succAbove c)⟩

def Matrix3.minor (m : Matrix3) (row col : Fin 3) : ℝ :=
  (m.submatrix row col).determinant

def Matrix3.cofactor (m : Matrix3) (row col : Fin 3) : ℝ :=
  if (row.val + col.val) % 2 = 0 then m.minor row col else -(m.minor row col)

/-- `Matrix3.determinant`: cofactor expansion along row 0, as in the source. -/
def Matrix3.determinant (m : Matrix3) : ℝ :=
  m.data 0 0 * m.cofactor 0 0 + m.data 0 1 * m.cofactor 0 1 + m.data 0 2 * m.cofactor 0 2

def Matrix4.submatrix (m : Matrix4) (row col : Fin 4) : Matrix3 :=
  ⟨fun r c => m.data (row.succAbove r) (col.succAbove c)⟩

def Matrix4.minor (m : Matrix4) (row col : Fin 4) : ℝ :=
  (m.submatrix row col).determinant

def Matrix4.cofactor (m : Matrix4) (row col : Fin 4) : ℝ :=
  if (row.val + col.val) % 2 = 0 then m.minor row col else -(m.minor row col)

/-- `Matrix4.determinant`: cofactor expansion along row 0. -/
def Matrix4.determinant (m : Matrix4) : ℝ :=
  m.data 0 0 * m.cofactor 0 0 + m.data 0 1 * m.cofactor 0 1 +
    m.data 0 2 * m.cofactor 0 2 + m.data 0 3 * m.cofactor 0 3

/-- `Matrix4.inverse`: `mat[x, y] = cofactor(y, x) / determinant` for every
entry, with NO determinant-zero check (unlike `Matrix2.inverse`): the entry
division is performed unconditionally and a matrix is always returned. -/
def Matrix4.inverse (m : Matrix4) : Matrix4 :=
  ⟨fun x y => m.cofactor y x / m.determinant⟩

def Matrix4.mul (a b : Matrix4) : Matrix4 :=
  ⟨fun i j => ∑ k : Fin 4, a.data i k * b.data k j⟩

def Matrix4.transpose (m : Matrix4) : Matrix4 := ⟨fun i j => m.data j i⟩

def Matrix4.identity : Matrix4 :=
  ⟨fun i j => if i = j then 1 else 0⟩

def Matrix4.translation (x y z : ℝ) : Matrix4 :=
  ⟨fun i j =>
    if i = 0 ∧ j = 3 then x
    else if i = 1 ∧ j = 3 then y
    else if i = 2 ∧ j = 3 then z
    else if i = j then 1 else 0⟩

def Matrix4.scaling (sx sy sz : ℝ) : Matrix4 :=
  ⟨fun i j =>
    if i = 0 ∧ j = 0 then sx
    else if i = 1 ∧ j = 1 then sy
    else if i = 2 ∧ j = 2 then sz
    else if i = j then 1 else 0⟩

def Matrix4.rotation_x (theta : ℝ) : Matrix4 :=
  ⟨fun i j =>
    if i = 1 ∧ j = 1 then Real.cos theta
    else if i = 1 ∧ j = 2 then -Real.sin theta
    else if i = 2 ∧ j = 1 then Real.sin theta
    else if i = 2 ∧ j = 2 then Real.cos theta
    else if i = j then 1 else 0⟩

def Matrix4.rotation_y (theta : ℝ) : Matrix4 :=
  ⟨fun i j =>
    if i = 0 ∧ j = 0 then Real.cos theta
    else if i = 0 ∧ j = 2 then Real.sin theta
    else if i = 2 ∧ j = 0 then -Real.sin theta
    else if i = 2 ∧ j = 2 then Real.cos theta
    else if i = j then 1 else 0⟩

def Matrix4.rotation_z (theta : ℝ) : Matrix4 :=
  ⟨fun i j =>
    if i = 0 ∧ j = 0 then Real.cos theta
    else if i = 0 ∧ j = 1 then -Real.sin theta
    else if i = 1 ∧ j = 0 then Real.sin theta
    else if i = 1 ∧ j = 1 then Real.cos theta
    else if i = j then 1 else 0⟩

def Matrix4.shear (xy xz yx yz zx zy : ℝ) : Matrix4 :=
  ⟨fun i j =>
    if i = 0 ∧ j = 1 then xy
    else if i = 0 ∧ j = 2 then xz
    else if i = 1 ∧ j = 0 then yx
    else if i = 1 ∧ j = 2 then yz
    else if i = 2 ∧ j = 0 then zx
    else if i = 2 ∧ j = 1 then zy
    else if i = j then 1 else 0⟩

/-- `Matrix4.view_transform(from, to, up)`. -/
def Matrix4.view_transform (p_from p_to : Point3) (v_up : Vector3) : Matrix4 :=
  let v_forward := (p_to.sub p_from).normalized
  let v_up_n := v_up.normalized
  let v_left := v_forward.cross v_up_n
  let v_true_up := v_left.cross v_forward
  let m_orientation : Matrix4 :=
    ⟨fun i j =>
      if i = 0 then (if j = 0 then v_left.x else if j = 1 then v_left.y
                     else if j = 2 then v_left.z else 0)
      else if i = 1 then (if j = 0 then v_true_up.x else if j = 1 then v_true_up.y
                          else if j = 2 then v_true_up.z else 0)
      else if i = 2 then (if j = 0 then -v_forward.x else if j = 1 then -v_forward.y
                          else if j = 2 then -v_forward.z else 0)
      else (if j = 3 then 1 else 0)⟩
  m_orientation.mul (Matrix4.translation (-p_from.x) (-p_from.y) (-p_from.z))

/-- Multiplying a homogeneous point (w = 1): `mat @ p.to_xyzw()`, then
`Point3.from_xyzw` keeps the xyz components.  Every matrix applied to points
in the embedded code has last row (0,0,0,1), so w stays 1. -/
def Matrix4.mulPoint (m : Matrix4) (p : Point3) : Point3 :=
  ⟨m.data 0 0 * p.x + m.data 0 1 * p.y + m.data 0 2 * p.z + m.data 0 3,
   m.data 1 0 * p.x + m.data 1 1 * p.y + m.data 1 2 * p.z + m.data 1 3,
   m.data 2 0 * p.x + m.data 2 1 * p.y + m.data 2 2 * p.z + m.data 2 3⟩

/-- Multiplying a homogeneous vector (w = 0). -/
def Matrix4.mulVector (m : Matrix4) (v : Vector3) : Vector3 :=
  ⟨m.data 0 0 * v.x + m.data 0 1 * v.y + m.data 0 2 * v.z,
   m.data 1 0 * v.x + m.data 1 1 * v.y + m.data 1 2 * v.z,
   m.data 2 0 * v.x + m.data 2 1 * v.y + m.data 2 2 * v.z⟩

/-- core/rays/ray.py `Ray` (origin + direction; the defaulted `t` field is
never read by the embedded code and is omitted). -/
structure Ray where
  origin : Point3
  dir : Vector3

def Ray.get_position (r : Ray) (t : ℝ) : Point3 := r.origin.addVec (r.dir.smul t)

/-- `Ray.transform(mat)`: origin as w=1, direction as w=0. -/
def Ray.transform (r : Ray) (mat : Matrix4) : Ray :=
  ⟨mat.mulPoint r.origin, mat.mulVector r.dir⟩

/-- The pattern variants of core/patterns/*.py (Blend, which recursively
holds two sub-patterns, is not needed by any claim and is omitted). -/
inductive PatternKind where
  | striped (a_color b_color : Color)
  | gradient (a_color b_color : Color)
  | ring (a_color b_color : Color)
  | checkered (a_color b_color : Color)

/-- core/materials/pattern/pattern.py `Pattern`: owns its own transform. -/
structure Pattern where
  transform : Matrix4
  kind : PatternKind

/-- `Pattern.at(point)` dispatched over the concrete pattern classes.
`np.floor(v) % 2 == 0` is `⌊v⌋ % 2 = 0` over ℤ. -/
def Pattern.at (p : Pattern) (point : Point3) : Color :=
  match p.kind with
  | .striped a b => if (⌊point.x⌋ : ℤ) % 2 = 0 then a else b
  | .gradient a b =>
      let dist := Color.sub b a
      let frac := point.x - (⌊point.x⌋ : ℝ)
      Color.make (a.r + dist.r * frac) (a.g + dist.g * frac) (a.b + dist.b * frac)
  | .ring a b =>
      if (⌊Real.sqrt (point.x ^ 2 + point.z ^ 2)⌋ : ℤ) % 2 = 0 then a else b
  | .checkered a b =>
      if ((⌊point.x⌋ : ℤ) + ⌊point.y⌋ + ⌊point.z⌋) % 2 = 0 then a else b

/-- core/cpu/materials/material.py `Material` (the repository's only Material
with `transparency`/`ior`/`lit`, which core/scene.py consumes). -/
structure Material where
  color : Color
  pattern : Option Pattern
  ambient : ℝ
  diffuse : ℝ
  specular : ℝ
  shininess : ℝ
  reflective : ℝ
  transparency : ℝ
  ior : ℝ

def Material.white : Material :=
  ⟨Color.make 1 1 1, none, 1/10, 9/10, 9/10, 200, 0, 0, 1⟩

/-- core/lights/light.py `Light`. -/
structure Light where
  position : Point3
  intensity : Color

/-- The shape variants needed by the claims.  `center`/`radius` are the
constructor fields of Sphere and Cylinder (the cylinder quadratic reads
`radius` but never `center`). -/
inductive ShapeKind where
  | sphere (center : Point3) (radius : ℝ)
  | cylinder (center : Point3) (radius minimum maximum : ℝ) (closed : Bool)

/-- core/objects/shapes/shape.py `Shape`: transform, material, cast_shadow
flag, optional parent (group) and the concrete-kind payload.  `oid` models
Python object identity (Shape defines no `__eq__`): distinct objects get
distinct oids, so structural equality coincides with identity. -/
inductive Shape where
  | mk (oid : ℕ) (transform : Matrix4) (material : Material)
       (cast_shadow : Bool) (parent : Option Shape) (kind : ShapeKind)

def Shape.oid : Shape → ℕ
  | .mk o _ _ _ _ _ => o

def Shape.transform : Shape → Matrix4
  | .mk _ t _ _ _ _ => t

def Shape.material : Shape → Material
  | .mk _ _ m _ _ _ => m

def Shape.cast_shadow : Shape → Bool
  | .mk _ _ _ c _ _ => c

def Shape.parent : Shape → Option Shape
  | .mk _ _ _ _ p _ => p

def Shape.kind : Shape → ShapeKind
  | .mk _ _ _ _ _ k => k

/-- core/utils.py `world_to_object`: recursively convert through the parent
chain first, then apply this shape's inverse transform. -/
def world_to_object : Shape → Point3 → Point3
  | .mk _ t _ _ parent _, point =>
      let point := match parent with
        | some par => world_to_object par point
        | none => point
      t.inverse.mulPoint point

/-- core/utils.py `normal_to_world`: inverse-transpose with w forced to 0,
normalize, then recurse up the parent chain. -/
def normal_to_world : Shape → Vector3 → Vector3
  | .mk _ t _ _ parent _, normal =>
      let normal := (t.inverse.transpose.mulVector normal).normalized
      match parent with
      | some par => normal_to_world par normal
      | none => normal

/-- core/materials/pattern/pattern.py `Pattern.at_object`: converts the world
point by the shape's OWN inverse transform only, then by the pattern's
inverse (the parent chain does not participate). -/
def Pattern.at_object (p : Pattern) (obj : Shape) (world_point : Point3) : Color :=
  let obj_point := obj.transform.inverse.mulPoint world_point
  let pattern_point := p.transform.inverse.mulPoint obj_point
  p.at pattern_point

/-- core/cpu/materials/material.py `Material.lit` (Phong). -/
def Material.lit (m : Material) (obj : Shape) (light : Light) (point : Point3)
    (eye normal : Vector3) (in_shadow : Bool) : Color :=
  let diffuse0 : Color := Color.make 0 0 0
  let specular0 : Color := Color.make 0 0 0
  let color := match m.pattern with
    | some pat => pat.at_object obj point
    | none => m.color
  let eff_color := color.hadamard light.intensity
  let light_vec := (light.position.sub point).normalized
  let ambient := eff_color.scale m.ambient
  if in_shadow then Color.make ambient.r ambient.g ambient.b
  else
    let light_dot_normal := light_vec.dot normal
    let diffuse := if 0 ≤ light_dot_normal then eff_color.scale (m.diffuse * light_dot_normal)
      else diffuse0
    let specular :=
      if 0 ≤ light_dot_normal then
        let reflect_vec := (light_vec.neg).reflect normal
        let reflect_dot_eye := reflect_vec.dot eye
        if 0 < reflect_dot_eye then
          light.intensity.scale (m.specular * Real.rpow reflect_dot_eye m.shininess)
        else specular0
      else specular0
    Color.make (ambient.r + diffuse.r + specular.r) (ambient.g + diffuse.g + specular.g)
      (ambient.b + diffuse.b + specular.b)

/-- core/rays/intersection.py `Intersection` (t, object). -/
structure Intersection where
  t : ℝ
  obj : Shape

/-- core/rays/intersections.py / core/cpu/rays/intersections.py
`Intersections`: the list of intersections (`count` is its length). -/
structure Intersections where
  intersections : List Intersection

def Intersections.count (xs : Intersections) : ℕ := xs.intersections.length

/-- Ascending-t comparison used by every `sort(key=lambda x: x.t)`. -/
def interLE (a b : Intersection) : Prop := a.t ≤ b.t

instance : DecidableRel interLE := fun a b => Real.decidableLE a.t b.t

instance : IsTotal Intersection interLE := ⟨fun a b => le_total a.t b.t⟩

instance : IsTrans Intersection interLE := ⟨fun _ _ _ hab hbc => le_trans hab hbc⟩

/-- Python's stable ascending sort by t. -/
def sortByT (l : List Intersection) : List Intersection := l.insertionSort interLE

/-- core/cpu/objects/shapes/sphere.py `Sphere.local_intersect` (the quadratic;
`self` is the carrying shape). -/
def sphere_local_intersect (self : Shape) (center : Point3) (radius : ℝ)
    (ray : Ray) : Intersections :=
  let L := ray.origin.sub center
  let a := ray.dir.dot ray.dir
  let b := 2 * ray.dir.dot L
  let c := L.dot L - radius ^ 2
  let det := b ^ 2 - 4 * a * c
  let inters : List Intersection :=
    if 0 < det then
      [⟨(-b + Real.sqrt det) / (2 * a), self⟩, ⟨(-b - Real.sqrt det) / (2 * a), self⟩]
    else if det = 0 then
      [⟨-b / (2 * a), self⟩, ⟨-b / (2 * a), self⟩]
    else []
  ⟨sortByT inters⟩

/-- core/objects/shapes/cylinder.py `Cylinder._check_cap`. -/
def cylinder_check_cap (radius : ℝ) (ray : Ray) (t : ℝ) : Prop :=
  let x := ray.origin.x + ray.dir.x * t
  let z := ray.origin.z + ray.dir.z * t
  x ^ 2 + z ^ 2 ≤ radius ^ 2

/-- core/objects/shapes/cylinder.py `Cylinder._intersect_caps`: appended cap
hits; skipped entirely unless `closed` and `|D_y|` is not numpy-close to 0. -/
def cylinder_intersect_caps (self : Shape) (radius minimum maximum : ℝ)
    (closed : Bool) (ray : Ray) : List Intersection :=
  if ¬ closed ∨ |ray.dir.y| ≤ NP_ATOL then []
  else
    let t0 := (minimum - ray.origin.y) / ray.dir.y
    let t1 := (maximum - ray.origin.y) / ray.dir.y
    (if cylinder_check_cap radius ray t0 then [⟨t0, self⟩] else []) ++
      (if cylinder_check_cap radius ray t1 then [⟨t1, self⟩] else [])

/-- core/objects/shapes/cylinder.py `Cylinder.local_intersect`.  When the
direction is numpy-close to parallel to the y axis the function returns an
EMPTY Intersections without consulting the caps (the `_intersect_caps` call
in that branch is commented out in the source). -/
def cylinder_local_intersect (self : Shape) (radius minimum maximum : ℝ)
    (closed : Bool) (ray : Ray) : Intersections :=
  let a := ray.dir.x ^ 2 + ray.dir.z ^ 2
  if |a| ≤ NP_ATOL then ⟨[]⟩
  else
    let b := 2 * ray.origin.x * ray.dir.x + 2 * ray.origin.z * ray.dir.z
    let c := ray.origin.x ^ 2 + ray.origin.z ^ 2 - radius ^ 2
    let disc := b ^ 2 - 4 * a * c
    if disc < 0 then ⟨[]⟩
    else
      let ta := (-b - Real.sqrt disc) / (2 * a)
      let tb := (-b + Real.sqrt disc) / (2 * a)
      let t0 := if tb < ta then tb else ta
      let t1 := if tb < ta then ta else tb
      let y0 := ray.origin.y + ray.dir.y * t0
      let wall0 : List Intersection :=
        if minimum < y0 ∧ y0 < maximum then [⟨t0, self⟩] else []
      let y1 := ray.origin.y + ray.dir.y * t1
      let wall1 : List Intersection :=
        if minimum < y1 ∧ y1 < maximum then [⟨t1, self⟩] else []
      ⟨wall0 ++ wall1 ++ cylinder_intersect_caps self radius minimum maximum closed ray⟩

/-- Dispatch of the polymorphic `local_intersect` over the embedded kinds. -/
def Shape.local_intersect (s : Shape) (ray : Ray) : Intersections :=
  match s.kind with
  | .sphere center radius => sphere_local_intersect s center radius ray
  | .cylinder _ radius minimum maximum closed =>
      cylinder_local_intersect s radius minimum maximum closed ray

/-- Dispatch of the polymorphic `local_normal_at`. -/
def Shape.local_normal_at (s : Shape) (local_point : Point3) : Vector3 :=
  match s.kind with
  | .sphere center _ => local_point.sub center
  | .cylinder _ _ minimum maximum _ =>
      let dist := local_point.x ^ 2 + local_point.z ^ 2
      if dist < 1 ∧ maximum - EPSILON ≤ local_point.y then ⟨0, 1, 0⟩
      else if dist < 1 ∧ local_point.y ≤ minimum - EPSILON then ⟨0, -1, 0⟩
      else ⟨local_point.x, 0, local_point.z⟩

/-- core/objects/shapes/shape.py `Shape.intersect`: transform the ray by the
inverse transform, then call `local_intersect`. -/
def Shape.intersect (s : Shape) (ray : Ray) : Intersections :=
  s.local_intersect (ray.transform s.transform.inverse)

/-- core/objects/shapes/shape.py `Shape.normal_at`. -/
def Shape.normal_at (s : Shape) (point : Point3) : Vector3 :=
  normal_to_world s (s.local_normal_at (world_to_object s point))

instance : DecidableEq Shape := fun _ _ => Classical.propDecidable _

instance : DecidableEq Intersection := fun _ _ => Classical.propDecidable _

/-- core/rays/computation.py `Computation`. -/
structure Computation where
  t : ℝ
  obj : Shape
  point : Point3
  eye : Vector3
  normal : Vector3
  reflect : Vector3
  inside : Bool
  over_point : Point3
  under_point : Point3
  cast_shadows : Bool
  n1 : ℝ
  n2 : ℝ

/-- The shared tail of `Computation.compute_fresnel`:
`r0 + (1 - r0) * (1 - cos) ** 5` with `r0 = ((n1-n2)/(n1+n2))**2`. -/
def fresnel_tail (n1 n2 cos : ℝ) : ℝ :=
  let r0 := ((n1 - n2) / (n1 + n2)) ^ 2
  r0 + (1 - r0) * (1 - cos) ^ 5

/-- core/rays/computation.py `Computation.compute_fresnel` (Schlick):
when n1 > n2 the cosine is replaced by the transmitted cosine, returning
exactly 1.0 on total internal reflection. -/
def Computation.compute_fresnel (c : Computation) : ℝ :=
  let cos := c.eye.dot c.normal
  if c.n2 < c.n1 then
    let n := c.n1 / c.n2
    let sin2_t := n ^ 2 * (1 - cos ^ 2)
    if 1 < sin2_t then 1
    else fresnel_tail c.n1 c.n2 (Real.sqrt (1 - sin2_t))
  else fresnel_tail c.n1 c.n2 cos

/-- The toggle rule of the refraction bookkeeping: if the object is already
in the container list remove (the first occurrence of) it, else append it. -/
def toggle {α : Type} [DecidableEq α] (l : List α) (a : α) : List α :=
  if a ∈ l then l.erase a else l ++ [a]

/-- `containers[-1].material.ior`, or 1.0 for an empty container list. -/
def lastIor (containers : List Shape) : ℝ :=
  match containers.getLast? with
  | none => 1
  | some s => s.material.ior

/-- The `for inter in inters.intersections` loop of `prepare_computations`:
walk the list, toggling each object, until the first element equal to the
hit (dataclass equality: same t and same object); return n1 (1.0 when the
loop never reaches the hit, matching the dataclass default) together with
the container list at that point. -/
def refract_walk (self : Intersection) : List Intersection → List Shape → ℝ × List Shape
  | [], containers => (1, containers)
  | i :: rest, containers =>
      if i = self then (lastIor containers, containers)
      else refract_walk self rest (toggle containers i.obj)

/-- The container list just before the hit: the toggle-fold over the prefix
of the list strictly before the first element equal to the hit. -/
def stack_before (self : Intersection) (xs : List Intersection) : List Shape :=
  (xs.takeWhile (fun i => decide ¬(i = self))).foldl (fun l i => toggle l i.obj) []

/-- The toggle-fold over a whole intersection list (the loop run to
completion, starting from an empty container list). -/
def process_all (xs : List Intersection) : List Shape :=
  xs.foldl (fun l i => toggle l i.obj) []

/-- core/rays/intersection.py `Intersection.prepare_computations`. -/
def Intersection.prepare_computations (self : Intersection) (ray : Ray)
    (inters : Intersections) : Computation :=
  let t := self.t
  let obj := self.obj
  let point := ray.get_position t
  let eye := ray.dir.neg
  let normal0 := obj.normal_at point
  let inside := decide (eye.dot normal0 < 0)
  let normal := if eye.dot normal0 < 0 then normal0.neg else normal0
  let reflect := ray.dir.reflect normal
  let over_point := point.addVec (normal.smul EPSILON)
  let under_point := point.subVec (normal.smul EPSILON)
  let w := refract_walk self inters.intersections []
  let containers := toggle w.2 obj
  ⟨t, obj, point, eye, normal, reflect, inside, over_point, under_point,
    obj.cast_shadow, w.1, lastIor containers⟩

/-- core/scene.py `Scene` (objects + one light). -/
structure Scene where
  objects : List Shape
  light : Light

/-- core/scene.py `Scene.intersect_scene`: gather every object's
intersections, keep strictly positive t, sort ascending by t.  (The source's
`isinstance(res, list)` skip-branch for broken shapes is vacuous here: every
embedded kind returns an Intersections.) -/
def Scene.intersect_scene (s : Scene) (ray : Ray) : Intersections :=
  let total := s.objects.flatMap (fun obj => (obj.intersect ray).intersections)
  ⟨sortByT (total.filter (fun x => decide (0 < x.t)))⟩

/-- core/scene.py `Scene.is_shadowed`: cast a ray from the point toward the
light; shadowed iff there is a hit and the nearest hit's t is below the
distance to the light.  No cast_shadow flag is consulted here. -/
def Scene.is_shadowed (s : Scene) (point : Point3) : Bool :=
  let v := s.light.position.sub point
  let dist := v.magnitude
  let dir := v.normalized
  let ray : Ray := ⟨point, dir⟩
  let inters := s.intersect_scene ray
  match inters.intersections with
  | [] => false
  | hit :: _ => decide (hit.t < dist)

mutual

/-- core/scene.py `Scene.color_at`. -/
def Scene.color_at (s : Scene) (ray : Ray) (bounce_limit : ℤ) : Color :=
  let inters := s.intersect_scene ray
  match inters.intersections with
  | [] => Color.make 0 0 0
  | hit :: _ =>
      let comps := hit.prepare_computations ray inters
      s.shade_hit comps bounce_limit
termination_by bounce_limit.toNat * 3 + 2
decreasing_by
  all_goals simp_wf
  all_goals omega

/-- core/scene.py `Scene.shade_hit`. -/
def Scene.shade_hit (s : Scene) (comps : Computation) (bounce_limit : ℤ) : Color :=
  let in_shadow := comps.cast_shadows && s.is_shadowed comps.over_point
  let surface := comps.obj.material.lit comps.obj s.light comps.over_point
    comps.eye comps.normal in_shadow
  let reflected := s.reflected_color comps bounce_limit
  let refracted := s.refracted_color comps bounce_limit
  let material := comps.obj.material
  if 0 < material.reflective ∧ 0 < material.transparency then
    let reflectance := comps.compute_fresnel
    Color.make (surface.r + reflected.r * reflectance + refracted.r * (1 - reflectance))
      (surface.g + reflected.g * reflectance + refracted.g * (1 - reflectance))
      (surface.b + reflected.b * reflectance + refracted.b * (1 - reflectance))
  else
    Color.make (surface.r + reflected.r + refracted.r)
      (surface.g + reflected.g + refracted.g)
      (surface.b + reflected.b + refracted.b)
termination_by bounce_limit.toNat * 3 + 1
decreasing_by
  all_goals simp_wf
  all_goals omega

/-- core/scene.py `Scene.reflected_color`: black when the material is not
reflective or the bounce limit is exhausted; otherwise recurse from the
over-point along the reflection vector with the limit decreased by one. -/
def Scene.reflected_color (s : Scene) (comps : Computation) (bounce_limit : ℤ) : Color :=
  if comps.obj.material.reflective = 0 then Color.make 0 0 0
  else if h : bounce_limit ≤ 0 then Color.make 0 0 0
  else
    let reflect_ray : Ray := ⟨comps.over_point, comps.reflect⟩
    (s.color_at reflect_ray (bounce_limit - 1)).scale comps.obj.material.reflective
termination_by bounce_limit.toNat * 3
decreasing_by
  all_goals simp_wf
  all_goals omega

/-- core/scene.py `Scene.refracted_color`: black on zero transparency,
exhausted bounce limit, or total internal reflection; otherwise recurse from
the under-point along the refracted direction with the limit decreased. -/
def Scene.refracted_color (s : Scene) (comps : Computation) (bounce_limit : ℤ) : Color :=
  if comps.obj.material.transparency = 0 then Color.make 0 0 0
  else if h : bounce_limit ≤ 0 then Color.make 0 0 0
  else
    let n_ratio := comps.n1 / comps.n2
    let cos_i := comps.eye.dot comps.normal
    let sin2_t := n_ratio ^ 2 * (1 - cos_i ^ 2)
    if 1 < sin2_t then Color.make 0 0 0
    else
      let cos_t := Real.sqrt (1 - sin2_t)
      let dir := (comps.normal.smul (n_ratio * cos_i - cos_t)).sub (comps.eye.smul n_ratio)
      let refract_ray : Ray := ⟨comps.under_point, dir⟩
      (s.color_at refract_ray (bounce_limit - 1)).scale comps.obj.material.transparency
termination_by bounce_limit.toNat * 3
decreasing_by
  all_goals simp_wf
  all_goals omega

end

mutual

/-- Fuel-indexed approximant of `Scene.color_at`: the fuel `k` is consumed
exactly once per nested `color_at` call; with fuel exceeding the bounce
limit it agrees with `Scene.color_at` (see the depth-bound theorem). -/
def colorAtN (k : ℕ) (s : Scene) (ray : Ray) (bounce_limit : ℤ) : Color :=
  let inters := s.intersect_scene ray
  match inters.intersections with
  | [] => Color.make 0 0 0
  | hit :: _ =>
      let comps := hit.prepare_computations ray inters
      shadeHitN k s comps bounce_limit
termination_by k * 3 + 2
decreasing_by
  all_goals simp_wf
  all_goals omega

/-- Fuel-indexed approximant of `Scene.shade_hit`. -/
def shadeHitN (k : ℕ) (s : Scene) (comps : Computation) (bounce_limit : ℤ) : Color :=
  let in_shadow := comps.cast_shadows && s.is_shadowed comps.over_point
  let surface := comps.obj.material.lit comps.obj s.light comps.over_point
    comps.eye comps.normal in_shadow
  let reflected := reflectedN k s comps bounce_limit
  let refracted := refractedN k s comps bounce_limit
  let material := comps.obj.material
  if 0 < material.reflective ∧ 0 < material.transparency then
    let reflectance := comps.compute_fresnel
    Color.make (surface.r + reflected.r * reflectance + refracted.r * (1 - reflectance))
      (surface.g + reflected.g * reflectance + refracted.g * (1 - reflectance))
      (surface.b + reflected.b * reflectance + refracted.b * (1 - reflectance))
  else
    Color.make (surface.r + reflected.r + refracted.r)
      (surface.g + reflected.g + refracted.g)
      (surface.b + reflected.b + refracted.b)
termination_by k * 3 + 1
decreasing_by
  all_goals simp_wf
  all_goals omega

/-- Fuel-indexed approximant of `Scene.reflected_color`. -/
def reflectedN (k : ℕ) (s : Scene) (comps : Computation) (bounce_limit : ℤ) : Color :=
  if comps.obj.material.reflective = 0 then Color.make 0 0 0
  else if bounce_limit ≤ 0 then Color.make 0 0 0
  else match k with
    | 0 => Color.make 0 0 0
    | k' + 1 =>
        let reflect_ray : Ray := ⟨comps.over_point, comps.reflect⟩
        (colorAtN k' s reflect_ray (bounce_limit - 1)).scale comps.obj.material.reflective
termination_by k * 3
decreasing_by
  all_goals simp_wf
  all_goals omega

/-- Fuel-indexed approximant of `Scene.refracted_color`. -/
def refractedN (k : ℕ) (s : Scene) (comps : Computation) (bounce_limit : ℤ) : Color :=
  if comps.obj.material.transparency = 0 then Color.make 0 0 0
  else if bounce_limit ≤ 0 then Color.make 0 0 0
  else
    let n_ratio := comps.n1 / comps.n2
    let cos_i := comps.eye.dot comps.normal
    let sin2_t := n_ratio ^ 2 * (1 - cos_i ^ 2)
    if 1 < sin2_t then Color.make 0 0 0
    else match k with
      | 0 => Color.make 0 0 0
      | k' + 1 =>
          let cos_t := Real.sqrt (1 - sin2_t)
          let dir := (comps.normal.smul (n_ratio * cos_i - cos_t)).sub (comps.eye.smul n_ratio)
          let refract_ray : Ray := ⟨comps.under_point, dir⟩
          (colorAtN k' s refract_ray (bounce_limit - 1)).scale comps.obj.material.transparency
termination_by k * 3
decreasing_by
  all_goals simp_wf
  all_goals omega

end

/-- numpy float values as the cpu slab test sees them: finite reals, the two
signed infinities (`tmin * np.inf`) and NaN (`0 * np.inf`). -/
inductive FVal where
  | nan
  | pinf
  | ninf
  | fin (x : ℝ)

/-- `v - origin` with a finite (float) origin. -/
def FVal.subR : FVal → ℝ → FVal
  | .nan, _ => .nan
  | .pinf, _ => .pinf
  | .ninf, _ => .ninf
  | .fin x, r => .fin (x - r)

/-- `v / dir` for a finite nonzero divisor (the call site guarantees
`|dir| ≥ EPSILON`); infinities keep or flip sign with the divisor. -/
def FVal.divR (v : FVal) (d : ℝ) : FVal :=
  match v with
  | .nan => .nan
  | .pinf => if 0 < d then .pinf else .ninf
  | .ninf => if 0 < d then .ninf else .pinf
  | .fin x => .fin (x / d)

/-- `v * np.inf`: `0 * inf` is NaN, otherwise the sign is kept. -/
def FVal.mulPinf : FVal → FVal
  | .nan => .nan
  | .pinf => .pinf
  | .ninf => .ninf
  | .fin x => if 0 < x then .pinf else if x < 0 then .ninf else .nan

/-- IEEE `>`: any comparison involving NaN is false. -/
def FVal.gt : FVal → FVal → Bool
  | .nan, _ => false
  | _, .nan => false
  | .pinf, .pinf => false
  | .pinf, _ => true
  | .ninf, _ => false
  | .fin _, .pinf => false
  | .fin _, .ninf => true
  | .fin x, .fin y => decide (y < x)

/-- A point of numpy floats (bounds corners may be ±inf). -/
structure FPoint3 where
  x : FVal
  y : FVal
  z : FVal

/-- core/cpu/opt/bounds.py `Bounds`. -/
structure BoundsF where
  minimum : FPoint3
  maximum : FPoint3

/-- core/cpu/objects/shapes/shape.py `Shape._check_axis`. -/
def check_axis (origin dir : ℝ) (min_b max_b : FVal) : FVal × FVal :=
  let tmin := min_b.subR origin
  let tmax := max_b.subR origin
  let p := if EPSILON ≤ |dir| then (tmin.divR dir, tmax.divR dir)
    else (tmin.mulPinf, tmax.mulPinf)
  if FVal.gt p.1 p.2 then (p.2, p.1) else p

/-- The cpu `Shape` wrapper layer: transform, bounds, and the polymorphic
`local_intersect` as a function field. -/
structure CPUShape where
  transform : Matrix4
  bounds : BoundsF
  localIntersect : Ray → Intersections

/-- core/cpu/objects/shapes/shape.py `Shape.check_bounds_intersections`:
per-axis slab test; bail out when tmin > tmax after the swap. -/
def CPUShape.check_bounds_intersections (s : CPUShape) (ray : Ray) : Bool :=
  let xp := check_axis ray.origin.x ray.dir.x s.bounds.minimum.x s.bounds.maximum.x
  if FVal.gt xp.1 xp.2 then false
  else
    let yp := check_axis ray.origin.y ray.dir.y s.bounds.minimum.y s.bounds.maximum.y
    if FVal.gt yp.1 yp.2 then false
    else
      let zp := check_axis ray.origin.z ray.dir.z s.bounds.minimum.z s.bounds.maximum.z
      if FVal.gt zp.1 zp.2 then false
      else true

/-- core/cpu/objects/shapes/shape.py `Shape.intersect`: inverse-transform the
ray, pre-cull with the bounds test, then call `local_intersect`. -/
def CPUShape.intersect (s : CPUShape) (ray : Ray) : Intersections :=
  let ray := ray.transform s.transform.inverse
  if ¬ s.check_bounds_intersections ray then ⟨[]⟩
  else s.localIntersect ray

/-- core/cpu/objects/shapes/triangle.py `Triangle` (its vertex payload; the
derived edge/normal fields are functions of the vertices). -/
structure Triangle where
  p1 : Point3
  p2 : Point3
  p3 : Point3

/-- core/cpu/objects/shapes/group.py `Group._fan_triangulate`:
`for i in range(1, len(vertices)): Triangle(vertices[0], vertices[i],
vertices[i + 1])`.  Python list indexing raises IndexError out of range,
embedded as `none`. -/
def fan_triangulate (vertices : List Point3) : Option (List Triangle) :=
  ((List.range vertices.length).drop 1).mapM (fun i => do
    let a ← vertices[0]?
    let b ← vertices[i]?
    let c ← vertices[i + 1]?
    pure (Triangle.mk a b c))

/-- The affine transforms producible by the `Matrix4` constructors and their
products. -/
inductive Constructed : Matrix4 → Prop where
  | identity : Constructed Matrix4.identity
  | translation (x y z : ℝ) : Constructed (Matrix4.translation x y z)
  | scaling (sx sy sz : ℝ) : Constructed (Matrix4.scaling sx sy sz)
  | rotation_x (theta : ℝ) : Constructed (Matrix4.rotation_x theta)
  | rotation_y (theta : ℝ) : Constructed (Matrix4.rotation_y theta)
  | rotation_z (theta : ℝ) : Constructed (Matrix4.rotation_z theta)
  | shear (xy xz yx yz zx zy : ℝ) : Constructed (Matrix4.shear xy xz yx yz zx zy)
  | view_transform (p_from p_to : Point3) (v_up : Vector3) :
      Constructed (Matrix4.view_transform p_from p_to v_up)
  | mul {a b : Matrix4} : Constructed a → Constructed b → Constructed (a.mul b)

/-- A sphere that does not cast shadows, sitting between `exPoint` and the
light of `exScene`. -/
def exSphereShadow : Shape :=
  .mk 1 Matrix4.identity Material.white false none (.sphere ⟨0, 0, 0⟩ 1)

def exLight : Light := ⟨⟨0, 0, 10⟩, Color.make 1 1 1⟩

def exScene : Scene := ⟨[exSphereShadow], exLight⟩

def exPoint : Point3 := ⟨0, 0, -5⟩

def exShapeA : Shape :=
  .mk 2 Matrix4.identity Material.white true none (.sphere ⟨0, 0, 0⟩ 1)

def exShapeB : Shape :=
  .mk 3 Matrix4.identity Material.white true none (.sphere ⟨0, 0, 0⟩ 1)

def exRay : Ray := ⟨⟨0, 0, 0⟩, ⟨0, 0, 1⟩⟩

def exComp : Computation :=
  ⟨1, exShapeA, ⟨0, 0, 1⟩, ⟨0, 0, -1⟩, ⟨0, 0, -1⟩, ⟨0, 0, 1⟩, false,
    ⟨0, 0, 1⟩, ⟨0, 0, 1⟩, true, 1, 1⟩

/-- A glass-to-air Fresnel computation (head-on: eye·normal = 1). -/
def exFresnelComp : Computation :=
  ⟨1, exShapeA, ⟨0, 0, 0⟩, ⟨0, 0, 1⟩, ⟨0, 0, 1⟩, ⟨0, 0, 1⟩, false,
    ⟨0, 0, 0⟩, ⟨0, 0, 0⟩, true, 3/2, 1⟩

/-- A closed unit cylinder truncated to 1 ≤ y ≤ 2. -/
def exCylinder : Shape :=
  .mk 4 Matrix4.identity Material.white true none (.cylinder ⟨0, 0, 0⟩ 1 1 2 true)

def exRayParallel : Ray := ⟨⟨0, 0, 0⟩, ⟨0, 1, 0⟩⟩

def exRaySlant : Ray := ⟨⟨0, 0, 0⟩, ⟨3/10, 1, 0⟩⟩

def exGroup : Shape :=
  .mk 10 (Matrix4.scaling 2 2 2) Material.white true none (.sphere ⟨0, 0, 0⟩ 1)

def exChild : Shape :=
  .mk 11 Matrix4.identity Material.white true (some exGroup) (.sphere ⟨0, 0, 0⟩ 1)

def exStripe : Pattern :=
  ⟨Matrix4.identity, .striped (Color.make 1 1 1) (Color.make 0 0 0)⟩

def exPatternPoint : Point3 := ⟨2, 0, 0⟩

def exSingular : Matrix4 := Matrix4.scaling 0 1 1

def exQuad : List Point3 := [⟨0, 0, 0⟩, ⟨1, 0, 0⟩, ⟨1, 1, 0⟩, ⟨0, 1, 0⟩]

theorem sa3_00 : (0 : Fin 3).succAbove 0 = 1 := by decide

theorem sa3_01 : (0 : Fin 3).succAbove 1 = 2 := by decide

theorem sa3_10 : (1 : Fin 3).succAbove 0 = 0 := by decide

theorem sa3_11 : (1 : Fin 3).succAbove 1 = 2 := by decide

theorem sa3_20 : (2 : Fin 3).succAbove 0 = 0 := by decide

theorem sa3_21 : (2 : Fin 3).succAbove 1 = 1 := by decide

theorem fv4_3 : ((3 : Fin 4) : ℕ) = 3 := rfl

theorem sign_ite (a b : ℕ) (d : ℝ) :
    (if (a + b) % 2 = 0 then d else -d) = (-1 : ℝ) ^ (a + b) * d := by
  rcases Nat.even_or_odd (a + b) with h | h
  · rw [if_pos (Nat.even_iff.mp h), h.neg_one_pow, one_mul]
  · have ho : (a + b) % 2 = 1 := Nat.odd_iff.mp h
    rw [if_neg (by omega), h.neg_one_pow, neg_one_mul]

theorem det3_eq (m : Matrix3) : m.determinant = Matrix.det (Matrix.of m.data) := by
  rw [Matrix.det_fin_three]
  simp only [Matrix3.determinant, Matrix3.cofactor, Matrix3.minor, Matrix3.submatrix,
    Matrix2.determinant, sa3_00, sa3_01, sa3_10, sa3_11, sa3_20, sa3_21, Matrix.of_apply]
  norm_num
  ring

theorem minor4_eq (m : Matrix4) (i j : Fin 4) :
    m.minor i j = Matrix.det ((Matrix.of m.data).submatrix i.succAbove j.succAbove) :=
  det3_eq (m.submatrix i j)

theorem cof4_adj (m : Matrix4) (i j : Fin 4) :
    m.cofactor i j = Matrix.adjugate (Matrix.of m.data) j i := by
  rw [Matrix.adjugate_fin_succ_eq_det_submatrix, Matrix4.cofactor, minor4_eq, sign_ite]

theorem det4_eq (m : Matrix4) : m.determinant = Matrix.det (Matrix.of m.data) := by
  rw [Matrix.det_succ_row_zero, Fin.sum_univ_four]
  simp only [Matrix4.determinant, Matrix4.cofactor, minor4_eq, sign_ite,
    Fin.succAbove_zero, Matrix.of_apply, Fin.val_zero, Fin.val_one, Fin.val_two, fv4_3]
  norm_num

theorem Matrix4.mul_inverse_of_det_ne_zero (m : Matrix4) (h : m.determinant ≠ 0) :
    m.mul m.inverse = Matrix4.identity := by
  have hA : (Matrix.of m.data).det ≠ 0 := by rw [← det4_eq]; exact h
  have hmul := Matrix.mul_adjugate (Matrix.of m.data)
  ext i j
  have hsum : (∑ k : Fin 4, m.data i k * Matrix.adjugate (Matrix.of m.data) k j)
      = (Matrix.of m.data).det * (if i = j then 1 else 0) := by
    have := congrFun (congrFun hmul i) j
    simpa [Matrix.mul_apply, Matrix.one_apply, Matrix.smul_apply] using this
  show (∑ k : Fin 4, m.data i k * (m.cofactor j k / m.determinant)) = _
  calc (∑ k : Fin 4, m.data i k * (m.cofactor j k / m.determinant))
      = (∑ k : Fin 4, m.data i k * Matrix.adjugate (Matrix.of m.data) k j) / m.determinant := by
        rw [Finset.sum_div]
        refine Finset.sum_congr rfl fun k _ => ?_
        rw [cof4_adj, mul_div_assoc]
    _ = (if i = j then 1 else 0) := by
        rw [hsum, det4_eq]
        rcases eq_or_ne i j with hij | hij
        · simp [hij, div_self hA]
        · simp [hij]
    _ = Matrix4.identity.data i j := rfl

theorem Matrix4.inverse_data (m : Matrix4) (i j : Fin 4) :
    m.inverse.data i j
      = Matrix.adjugate (Matrix.of m.data) i j / Matrix.det (Matrix.of m.data) := by
  show m.cofactor j i / m.determinant = _
  rw [cof4_adj, det4_eq]

theorem of_identity_data : Matrix.of Matrix4.identity.data = (1 : Matrix (Fin 4) (Fin 4) ℝ) := by
  ext i j
  simp [Matrix4.identity, Matrix.one_apply]

theorem Matrix4.inverse_identity : Matrix4.identity.inverse = Matrix4.identity := by
  ext i j
  rw [Matrix4.inverse_data, of_identity_data, Matrix.adjugate_one, Matrix.det_one]
  simp [Matrix4.identity, Matrix.one_apply]

theorem of_scaling_data (sx sy sz : ℝ) :
    Matrix.of (Matrix4.scaling sx sy sz).data
      = Matrix.diagonal ![sx, sy, sz, 1] := by
  ext i j
  fin_cases i <;> fin_cases j <;>
    simp [Matrix4.scaling, Matrix.diagonal_apply]

theorem det_scaling (sx sy sz : ℝ) :
    (Matrix4.scaling sx sy sz).determinant = sx * sy * sz := by
  rw [det4_eq, of_scaling_data, Matrix.det_diagonal, Fin.prod_univ_four]
  simp

theorem mulPoint_identity (p : Point3) : Matrix4.identity.mulPoint p = p := by
  ext <;> simp [Matrix4.mulPoint, Matrix4.identity]

theorem mulVector_identity (v : Vector3) : Matrix4.identity.mulVector v = v := by
  ext <;> simp [Matrix4.mulVector, Matrix4.identity]

/-- Claim C7: every matrix built from the affine constructors (identity,
translation, scaling, rotations, shear, view_transform and their products)
with nonzero determinant satisfies `M.mul M.inverse = Matrix4.identity`
exactly, over exact real arithmetic. -/
theorem constructed_mul_inverse_eq_identity (M : Matrix4) (hc : Constructed M)
    (h : M.determinant ≠ 0) : M.mul M.inverse = Matrix4.identity :=
  Matrix4.mul_inverse_of_det_ne_zero M h

/-- Witness for C7 at the concrete constructed matrix `scaling 2 3 4`. -/
theorem constructed_mul_inverse_eq_identity_witness :
    (Matrix4.scaling 2 3 4).mul (Matrix4.scaling 2 3 4).inverse = Matrix4.identity :=
  constructed_mul_inverse_eq_identity _ (Constructed.scaling 2 3 4)
    (by rw [det_scaling]; norm_num)

/-- Claim C8 fails on the code: `Matrix4.inverse` performs no determinant
check (while `Matrix2.inverse` does raise, embedded as `none`): at the
singular matrix `scaling 0 1 1` it divides every cofactor by the zero
determinant and returns a (garbage, in numpy non-finite) matrix instead of
signalling; the returned matrix is not an inverse. -/
theorem matrix4_inverse_singular_no_error :
    exSingular.determinant = 0 ∧
    Matrix2.inverse ⟨fun _ _ => 0⟩ = none ∧
    exSingular.mul exSingular.inverse ≠ Matrix4.identity := by
  have hdet : exSingular.determinant = 0 := by
    rw [exSingular, det_scaling]; norm_num
  refine ⟨hdet, ?_, ?_⟩
  · simp [Matrix2.inverse, Matrix2.determinant]
  · intro h
    have h00 := congrArg (fun m => m.data 0 0) h
    simp only [Matrix4.mul, Matrix4.inverse, hdet, div_zero, mul_zero,
      Fin.sum_univ_four, Matrix4.identity] at h00
    norm_num at h00

theorem FVal.gt_asymm (a b : FVal) (h : FVal.gt a b = true) : FVal.gt b a = false := by
  cases a <;> cases b <;> simp_all [FVal.gt]
  exact le_of_lt h

theorem check_axis_not_gt (origin dir : ℝ) (min_b max_b : FVal) :
    FVal.gt (check_axis origin dir min_b max_b).1 (check_axis origin dir min_b max_b).2
      = false := by
  unfold check_axis
  set p := if EPSILON ≤ |dir| then
      ((min_b.subR origin).divR dir, (max_b.subR origin).divR dir)
    else ((min_b.subR origin).mulPinf, (max_b.subR origin).mulPinf) with hp
  by_cases hgt : FVal.gt p.1 p.2
  · simp only [hgt, if_true]
    exact FVal.gt_asymm _ _ hgt
  · simp only [hgt, if_false]
    exact Bool.eq_false_iff.mpr hgt

/-- Claim C10: the object-space AABB pre-cull is vacuous: for every ray and
every bounds the per-axis check after the swap can never see tmin > tmax
(NaN comparisons are false), so `check_bounds_intersections` always returns
true and `Shape.intersect` returns exactly `local_intersect` applied to the
inverse-transformed ray. -/
theorem check_bounds_vacuous_and_intersect_eq :
    (∀ (s : CPUShape) (ray : Ray), s.check_bounds_intersections ray = true) ∧
    (∀ (s : CPUShape) (ray : Ray),
        s.intersect ray = s.localIntersect (ray.transform s.transform.inverse)) := by
  have hcb : ∀ (s : CPUShape) (ray : Ray), s.check_bounds_intersections ray = true := by
    intro s ray
    unfold CPUShape.check_bounds_intersections
    simp only [check_axis_not_gt, Bool.false_eq_true, if_false]
  refine ⟨hcb, fun s ray => ?_⟩
  unfold CPUShape.intersect
  simp [hcb]

/-- Claim C9 fails on the code: `_fan_triangulate` iterates
`i in range(1, len(vertices))` and reads `vertices[i + 1]`, so on any
polygon with more than three vertices the final iteration indexes one past
the end of the list and raises IndexError (embedded: returns `none`) instead
of producing the n-2 fan triangles. -/
theorem fan_triangulate_quad_crashes : fan_triangulate exQuad = none := by
  rfl

theorem toggle_nodup {α : Type} [DecidableEq α] {l : List α} (h : l.Nodup) (a : α) :
    (toggle l a).Nodup := by
  unfold toggle
  split_ifs with hmem
  · exact h.erase a
  · simp [List.nodup_append, h, hmem]

theorem mem_toggle_iff {α : Type} [DecidableEq α] {l : List α} (hnd : l.Nodup) (x a : α) :
    x ∈ toggle l a ↔ ((x ∈ l ∧ x ≠ a) ∨ (x ∉ l ∧ x = a)) := by
  unfold toggle
  split_ifs with hmem
  · rw [hnd.mem_erase_iff]
    constructor
    · rintro ⟨hne, hx⟩; exact Or.inl ⟨hx, hne⟩
    · rintro (⟨hx, hne⟩ | ⟨hx, rfl⟩)
      · exact ⟨hne, hx⟩
      · exact absurd hmem hx
  · rw [List.mem_append, List.mem_singleton]
    constructor
    · rintro (hx | rfl)
      · exact Or.inl ⟨hx, fun hxa => hmem (hxa ▸ hx)⟩
      · exact Or.inr ⟨hmem, rfl⟩
    · rintro (⟨hx, _⟩ | ⟨_, rfl⟩)
      · exact Or.inl hx
      · exact Or.inr rfl

theorem mem_foldl_toggle {α : Type} [DecidableEq α] :
    ∀ (xs : List α) (l : List α), l.Nodup → ∀ x : α,
      (x ∈ xs.foldl toggle l ↔
        ((x ∈ l ∧ Even (xs.count x)) ∨ (x ∉ l ∧ Odd (xs.count x)))) := by
  intro xs
  induction xs with
  | nil =>
      intro l _ x
      simp only [List.foldl_nil, List.count_nil]
      constructor
      · intro hx; exact Or.inl ⟨hx, even_zero⟩
      · rintro (⟨hx, _⟩ | ⟨_, hodd⟩)
        · exact hx
        · exact absurd hodd (by simp)
  | cons a t ih =>
      intro l hnd x
      rw [List.foldl_cons, ih (toggle l a) (toggle_nodup hnd a) x,
        mem_toggle_iff hnd x a, List.count_cons]
      simp only [beq_iff_eq]
      by_cases hxa : x = a
      · rw [if_pos hxa.symm]
        subst hxa
        simp only [ne_eq, not_true, and_false, false_or, and_true, not_not,
          Nat.even_add_one, Nat.odd_add_one, ← Nat.not_even_iff_odd]
        tauto
      · rw [if_neg (fun h => hxa h.symm), add_zero]
        simp only [ne_eq, hxa, not_false_iff, and_true, and_false, or_false,
          ← Nat.not_even_iff_odd]

theorem foldl_toggle_even_nil {α : Type} [DecidableEq α] (xs : List α)
    (h : ∀ x : α, Even (xs.count x)) : xs.foldl toggle [] = [] := by
  rw [List.eq_nil_iff_forall_not_mem]
  intro x hx
  rw [mem_foldl_toggle xs [] List.nodup_nil x] at hx
  rcases hx with ⟨hx, _⟩ | ⟨_, hodd⟩
  · exact absurd hx (List.not_mem_nil x)
  · exact (Nat.not_odd_iff_even.mpr (h x)) hodd

theorem refract_walk_eq (self : Intersection) :
    ∀ (xs : List Intersection) (l : List Shape), self ∈ xs →
      refract_walk self xs l
        = (lastIor ((xs.takeWhile (fun i => decide ¬(i = self))).foldl
              (fun acc i => toggle acc i.obj) l),
           (xs.takeWhile (fun i => decide ¬(i = self))).foldl
              (fun acc i => toggle acc i.obj) l) := by
  intro xs
  induction xs with
  | nil => intro l hmem; exact absurd hmem (List.not_mem_nil self)
  | cons a t ih =>
      intro l hmem
      by_cases ha : a = self
      · subst ha
        rw [refract_walk, if_pos rfl]
        have htw : (a :: t).takeWhile (fun i => decide ¬(i = a)) = [] := by
          simp [List.takeWhile_cons]
        rw [htw, List.foldl_nil]
      · have hmem' : self ∈ t := by
          rcases List.mem_cons.mp hmem with h | h
          · exact absurd h.symm ha
          · exact h
        rw [refract_walk, if_neg ha]
        have htw : (a :: t).takeWhile (fun i => decide ¬(i = self))
            = a :: t.takeWhile (fun i => decide ¬(i = self)) := by
          simp [List.takeWhile_cons, ha]
        rw [htw, List.foldl_cons]
        exact ih (toggle l a.obj) hmem'

/-- Claim C3: the refraction bookkeeping obeys the stack law — the toggle
fold over a list in which every shape occurs an even number of times ends
empty — and `prepare_computations` records n1 as the ior of the last
container just before toggling the hit's object (the toggle-fold over the
prefix strictly before the first element equal to the hit) and n2 as the ior
of the last container just after that toggle. -/
theorem refraction_stack_law :
    (∀ xs : List Intersection,
        (∀ sh : Shape, Even ((xs.map Intersection.obj).count sh)) → process_all xs = []) ∧
    (∀ (self : Intersection) (ray : Ray) (inters : Intersections),
        self ∈ inters.intersections →
        (self.prepare_computations ray inters).n1
            = lastIor (stack_before self inters.intersections) ∧
        (self.prepare_computations ray inters).n2
            = lastIor (toggle (stack_before self inters.intersections) self.obj)) := by
  constructor
  · intro xs h
    unfold process_all
    rw [← List.foldl_map Intersection.obj toggle]
    exact foldl_toggle_even_nil _ h
  · intro self ray inters hmem
    have hw := refract_walk_eq self inters.intersections [] hmem
    constructor
    · show (refract_walk self inters.intersections []).1 = _
      rw [hw]
      rfl
    · show lastIor (toggle (refract_walk self inters.intersections []).2 self.obj) = _
      rw [hw]
      rfl

/-- Witness for C3: a two-entry list entering and leaving one glass sphere;
the first entry is the hit. -/
theorem refraction_stack_law_witness :
    process_all [⟨1, exShapeA⟩, ⟨2, exShapeA⟩] = [] ∧
    ((⟨1, exShapeA⟩ : Intersection).prepare_computations exRay
        ⟨[⟨1, exShapeA⟩, ⟨2, exShapeA⟩]⟩).n1
      = lastIor (stack_before ⟨1, exShapeA⟩ [⟨1, exShapeA⟩, ⟨2, exShapeA⟩]) := by
  constructor
  · refine refraction_stack_law.1 _ ?_
    intro sh
    by_cases h : sh = exShapeA <;>
      simp [List.count_cons, List.count_nil, h]
  · exact (refraction_stack_law.2 ⟨1, exShapeA⟩ exRay ⟨[⟨1, exShapeA⟩, ⟨2, exShapeA⟩]⟩
      (List.mem_cons_self _ _)).1

theorem fresnel_tail_bounds (n1 n2 cos : ℝ) (hn1 : 0 < n1) (hn2 : 0 < n2)
    (h0 : 0 ≤ cos) (h1 : cos ≤ 1) :
    0 ≤ fresnel_tail n1 n2 cos ∧ fresnel_tail n1 n2 cos ≤ 1 := by
  unfold fresnel_tail
  have hr0 : 0 ≤ ((n1 - n2) / (n1 + n2)) ^ 2 := sq_nonneg _
  have hr1 : ((n1 - n2) / (n1 + n2)) ^ 2 ≤ 1 := by
    rw [div_pow, div_le_one (by positivity)]
    nlinarith [mul_pos hn1 hn2]
  have hu0 : 0 ≤ (1 - cos) ^ 5 := pow_nonneg (by linarith) 5
  have hu1 : (1 - cos) ^ 5 ≤ 1 := pow_le_one₀ (by linarith) (by linarith)
  constructor
  · nlinarith
  · nlinarith [mul_le_mul_of_nonneg_left hu1
      (by linarith : (0:ℝ) ≤ 1 - ((n1 - n2) / (n1 + n2)) ^ 2)]

/-- Claim C4: for a Computation with unit eye and normal vectors whose dot
product lies in [0,1] and positive n1, n2, `compute_fresnel` lies in [0,1],
and it equals exactly 1.0 under total internal reflection (n1 > n2 and
sin²θt > 1). -/
theorem compute_fresnel_bounds (c : Computation)
    (heye : c.eye.sqrMagnitude = 1) (hnormal : c.normal.sqrMagnitude = 1)
    (hc0 : 0 ≤ c.eye.dot c.normal) (hc1 : c.eye.dot c.normal ≤ 1)
    (hn1 : 0 < c.n1) (hn2 : 0 < c.n2) :
    (0 ≤ c.compute_fresnel ∧ c.compute_fresnel ≤ 1) ∧
    (c.n2 < c.n1 → 1 < (c.n1 / c.n2) ^ 2 * (1 - c.eye.dot c.normal ^ 2) →
      c.compute_fresnel = 1) := by
  have hbody : c.compute_fresnel
      = (if c.n2 < c.n1 then
          (if 1 < (c.n1 / c.n2) ^ 2 * (1 - c.eye.dot c.normal ^ 2) then (1:ℝ)
           else fresnel_tail c.n1 c.n2
             (Real.sqrt (1 - (c.n1 / c.n2) ^ 2 * (1 - c.eye.dot c.normal ^ 2))))
         else fresnel_tail c.n1 c.n2 (c.eye.dot c.normal)) := by
    simp only [Computation.compute_fresnel]
  rw [hbody]
  constructor
  · by_cases hlt : c.n2 < c.n1
    · by_cases hT : 1 < (c.n1 / c.n2) ^ 2 * (1 - c.eye.dot c.normal ^ 2)
      · rw [if_pos hlt, if_pos hT]
        exact ⟨zero_le_one, le_refl 1⟩
      · rw [if_pos hlt, if_neg hT]
        have hs2 : 0 ≤ (c.n1 / c.n2) ^ 2 * (1 - c.eye.dot c.normal ^ 2) := by
          have hsq : c.eye.dot c.normal ^ 2 ≤ 1 := by nlinarith
          have h2 : (0:ℝ) ≤ (c.n1 / c.n2) ^ 2 := sq_nonneg _
          nlinarith
        exact fresnel_tail_bounds _ _ _ hn1 hn2 (Real.sqrt_nonneg _)
          (Real.sqrt_le_one.mpr (by linarith))
    · rw [if_neg hlt]
      exact fresnel_tail_bounds _ _ _ hn1 hn2 hc0 hc1
  · intro hlt hT
    rw [if_pos hlt, if_pos hT]

/-- Witness for C4 at a concrete glass-to-air computation. -/
theorem compute_fresnel_bounds_witness :
    (0 ≤ exFresnelComp.compute_fresnel ∧ exFresnelComp.compute_fresnel ≤ 1) ∧
    (exFresnelComp.n2 < exFresnelComp.n1 →
      1 < (exFresnelComp.n1 / exFresnelComp.n2) ^ 2
          * (1 - exFresnelComp.eye.dot exFresnelComp.normal ^ 2) →
      exFresnelComp.compute_fresnel = 1) :=
  compute_fresnel_bounds exFresnelComp
    (by norm_num [exFresnelComp, Vector3.sqrMagnitude])
    (by norm_num [exFresnelComp, Vector3.sqrMagnitude])
    (by norm_num [exFresnelComp, Vector3.dot])
    (by norm_num [exFresnelComp, Vector3.dot])
    (by norm_num [exFresnelComp])
    (by norm_num [exFresnelComp])

theorem color_at_approx : ∀ (k : ℕ) (bl : ℤ), bl.toNat < k →
    (∀ (s : Scene) (c : Computation), Scene.reflected_color s c bl = reflectedN k s c bl) ∧
    (∀ (s : Scene) (c : Computation), Scene.refracted_color s c bl = refractedN k s c bl) ∧
    (∀ (s : Scene) (c : Computation), Scene.shade_hit s c bl = shadeHitN k s c bl) ∧
    (∀ (s : Scene) (ray : Ray), Scene.color_at s ray bl = colorAtN k s ray bl) := by
  intro k
  induction k with
  | zero => intro bl h; exact absurd h (Nat.not_lt_zero _)
  | succ k ih =>
      intro bl hbl
      have hrefl : ∀ (s : Scene) (c : Computation),
          Scene.reflected_color s c bl = reflectedN (k + 1) s c bl := by
        intro s c
        rw [Scene.reflected_color, reflectedN]
        by_cases h1 : c.obj.material.reflective = 0
        · rw [if_pos h1, if_pos h1]
        · rw [if_neg h1, if_neg h1]
          by_cases h2 : bl ≤ 0
          · rw [dif_pos h2, if_pos h2]
          · rw [dif_neg h2, if_neg h2]
            have h3 : (bl - 1).toNat < k := by omega
            exact congrArg (fun col => Color.scale col c.obj.material.reflective)
              ((ih (bl - 1) h3).2.2.2 s ⟨c.over_point, c.reflect⟩)
      have hrefr : ∀ (s : Scene) (c : Computation),
          Scene.refracted_color s c bl = refractedN (k + 1) s c bl := by
        intro s c
        rw [Scene.refracted_color, refractedN]
        by_cases h1 : c.obj.material.transparency = 0
        · rw [if_pos h1, if_pos h1]
        · rw [if_neg h1, if_neg h1]
          by_cases h2 : bl ≤ 0
          · rw [dif_pos h2, if_pos h2]
          · rw [dif_neg h2, if_neg h2]
            by_cases h4 : 1 < (c.n1 / c.n2) ^ 2 * (1 - c.eye.dot c.normal ^ 2)
            · rw [if_pos h4, if_pos h4]
            · rw [if_neg h4, if_neg h4]
              have h3 : (bl - 1).toNat < k := by omega
              exact congrArg (fun col => Color.scale col c.obj.material.transparency)
                ((ih (bl - 1) h3).2.2.2 s
                  ⟨c.under_point,
                   (c.normal.smul (c.n1 / c.n2 * c.eye.dot c.normal -
                      Real.sqrt (1 - (c.n1 / c.n2) ^ 2 * (1 - c.eye.dot c.normal ^ 2)))).sub
                     (c.eye.smul (c.n1 / c.n2))⟩)
      have hshade : ∀ (s : Scene) (c : Computation),
          Scene.shade_hit s c bl = shadeHitN (k + 1) s c bl := by
        intro s c
        simp only [Scene.shade_hit, shadeHitN, hrefl, hrefr]
      refine ⟨hrefl, hrefr, hshade, ?_⟩
      intro s ray
      simp only [Scene.color_at, colorAtN]
      cases (s.intersect_scene ray).intersections with
      | nil => rfl
      | cons hit rest => exact hshade s _

/-- Claim C2: the mutually recursive color_at / shade_hit / reflected_color /
refracted_color are total (they are definable by well-founded recursion on
the bounce limit): reflected_color and refracted_color return black when the
bounce limit is ≤ 0, every nested color_at call decreases the limit by one,
and consequently color_at agrees with a fuel-indexed approximant whose fuel
exceeds the initial limit — the recursion tree of one ray chain has depth at
most the initial bounce limit. -/
theorem color_recursion_depth_bounded :
    (∀ (s : Scene) (c : Computation) (bl : ℤ), bl ≤ 0 →
        Scene.reflected_color s c bl = Color.make 0 0 0 ∧
        Scene.refracted_color s c bl = Color.make 0 0 0) ∧
    (∀ (k : ℕ) (bl : ℤ), bl.toNat < k → ∀ (s : Scene) (ray : Ray),
        Scene.color_at s ray bl = colorAtN k s ray bl) := by
  constructor
  · intro s c bl hbl
    constructor
    · rw [Scene.reflected_color]
      by_cases h1 : c.obj.material.reflective = 0
      · rw [if_pos h1]
      · rw [if_neg h1, dif_pos hbl]
    · rw [Scene.refracted_color]
      by_cases h1 : c.obj.material.transparency = 0
      · rw [if_pos h1]
      · rw [if_neg h1, dif_pos hbl]
  · intro k bl hbl s ray
    exact (color_at_approx k bl hbl).2.2.2 s ray

/-- Witness for C2 at the example scene, a concrete ray and bounce limit 0. -/
theorem color_recursion_depth_bounded_witness :
    (Scene.reflected_color exScene exComp 0 = Color.make 0 0 0 ∧
      Scene.refracted_color exScene exComp 0 = Color.make 0 0 0) ∧
    Scene.color_at exScene exRay 0 = colorAtN 1 exScene exRay 0 :=
  ⟨color_recursion_depth_bounded.1 exScene exComp 0 (by decide),
   color_recursion_depth_bounded.2 1 0 (by decide) exScene exRay⟩

theorem mem_intersect_scene_pos (s : Scene) (ray : Ray) :
    ∀ i ∈ (s.intersect_scene ray).intersections, 0 < i.t := by
  intro i hi
  have hperm : (s.intersect_scene ray).intersections.Perm
      ((s.objects.flatMap fun obj => (obj.intersect ray).intersections).filter
        fun x => decide (0 < x.t)) := List.perm_insertionSort _ _
  have hmem := hperm.mem_iff.mp hi
  have := List.of_mem_filter hmem
  exact of_decide_eq_true this

theorem intersect_scene_sorted (s : Scene) (ray : Ray) :
    List.Sorted interLE (s.intersect_scene ray).intersections :=
  List.sorted_insertionSort interLE _

/-- Claim C1 (amended): `is_shadowed(p)` returns true exactly when some
intersection along the ray from p toward the light has t strictly between 0
and the distance to the light — the cast_shadow flag of the blocking shape
is NOT consulted (the hit object's own flag only gates shading in
`shade_hit`). -/
theorem is_shadowed_iff_blocker (s : Scene) (p : Point3) :
    s.is_shadowed p = true ↔
      ∃ i ∈ (s.intersect_scene ⟨p, (s.light.position.sub p).normalized⟩).intersections,
        0 < i.t ∧ i.t < (s.light.position.sub p).magnitude := by
  have hbody : s.is_shadowed p
      = (match (s.intersect_scene ⟨p, (s.light.position.sub p).normalized⟩).intersections with
         | [] => false
         | hit :: _ => decide (hit.t < (s.light.position.sub p).magnitude)) := rfl
  rw [hbody]
  have hsorted := intersect_scene_sorted s ⟨p, (s.light.position.sub p).normalized⟩
  have hpos := mem_intersect_scene_pos s ⟨p, (s.light.position.sub p).normalized⟩
  cases hE : (s.intersect_scene ⟨p, (s.light.position.sub p).normalized⟩).intersections with
  | nil => simp [hE]
  | cons hit rest =>
      rw [hE] at hsorted hpos
      simp only [decide_eq_true_eq]
      constructor
      · intro hlt
        exact ⟨hit, List.mem_cons_self _ _, hpos hit (List.mem_cons_self _ _), hlt⟩
      · rintro ⟨i, hi, _, hlt⟩
        rcases List.mem_cons.mp hi with rfl | hi'
        · exact hlt
        · exact lt_of_le_of_lt (List.rel_of_sorted_cons hsorted i hi') hlt

theorem sqrt_225 : Real.sqrt 225 = 15 := by
  rw [show (225:ℝ) = 15 ^ 2 by norm_num]
  exact Real.sqrt_sq (by norm_num)

theorem sqrt_4 : Real.sqrt 4 = 2 := by
  rw [show (4:ℝ) = 2 ^ 2 by norm_num]
  exact Real.sqrt_sq (by norm_num)

theorem exC1_v : exScene.light.position.sub exPoint = ⟨0, 0, 15⟩ := by
  show (⟨0, 0, 10⟩ : Point3).sub ⟨0, 0, -5⟩ = _
  ext <;> norm_num [Point3.sub]

theorem exC1_mag : ((⟨0, 0, 15⟩ : Vector3)).magnitude = 15 := by
  rw [Vector3.magnitude,
    show (⟨0, 0, 15⟩ : Vector3).sqrMagnitude = 225 from by norm_num [Vector3.sqrMagnitude],
    sqrt_225]

theorem exC1_dir : ((⟨0, 0, 15⟩ : Vector3)).normalized = ⟨0, 0, 1⟩ := by
  rw [Vector3.normalized]
  simp only [exC1_mag]
  rw [if_neg (by norm_num)]
  ext <;> norm_num

theorem exC1_local :
    sphere_local_intersect exSphereShadow ⟨0, 0, 0⟩ 1 ⟨exPoint, ⟨0, 0, 1⟩⟩
      = ⟨[⟨4, exSphereShadow⟩, ⟨6, exSphereShadow⟩]⟩ := by
  simp only [sphere_local_intersect, exPoint, Point3.sub, Vector3.dot]
  norm_num [sqrt_4]
  simp only [sortByT, List.insertionSort, List.orderedInsert]
  rw [if_neg (show ¬ interLE (⟨6, exSphereShadow⟩ : Intersection) ⟨4, exSphereShadow⟩ from
    by norm_num [interLE])]

theorem exC1_transform :
    Ray.transform (⟨exPoint, ⟨0, 0, 1⟩⟩ : Ray) (Shape.transform exSphereShadow).inverse
      = ⟨exPoint, ⟨0, 0, 1⟩⟩ := by
  show Ray.transform _ Matrix4.identity.inverse = _
  rw [Matrix4.inverse_identity, Ray.transform, mulPoint_identity, mulVector_identity]

theorem exC1_intersect :
    exSphereShadow.intersect ⟨exPoint, ⟨0, 0, 1⟩⟩
      = ⟨[⟨4, exSphereShadow⟩, ⟨6, exSphereShadow⟩]⟩ := by
  rw [Shape.intersect, exC1_transform]
  exact exC1_local

theorem exC1_scene_inters :
    (exScene.intersect_scene ⟨exPoint, ⟨0, 0, 1⟩⟩).intersections
      = [⟨4, exSphereShadow⟩, ⟨6, exSphereShadow⟩] := by
  show (sortByT ((([exSphereShadow].flatMap
      fun obj => (obj.intersect ⟨exPoint, ⟨0, 0, 1⟩⟩).intersections).filter
        fun x => decide (0 < x.t)))) = _
  rw [List.flatMap_cons, List.flatMap_nil, exC1_intersect]
  show sortByT (List.filter _ [⟨4, exSphereShadow⟩, ⟨6, exSphereShadow⟩]) = _
  rw [List.filter_cons, List.filter_cons, List.filter_nil]
  rw [if_pos (by exact decide_eq_true (by norm_num)), if_pos (by exact decide_eq_true (by norm_num))]
  simp only [sortByT, List.insertionSort, List.orderedInsert]
  rw [if_pos (show interLE (⟨4, exSphereShadow⟩ : Intersection) ⟨6, exSphereShadow⟩ from
    by norm_num [interLE])]

/-- Claim C1 fails as stated: at this concrete scene the single blocking
sphere has cast_shadow = false, yet `is_shadowed` returns true — an
intervening shape whose cast_shadow flag is false DOES make the point
shadowed, because `is_shadowed` never consults the flag. -/
theorem is_shadowed_cast_shadow_counterexample :
    Scene.is_shadowed exScene exPoint = true ∧
    ∀ o ∈ exScene.objects, o.cast_shadow = false := by
  constructor
  · have hbody : exScene.is_shadowed exPoint
        = (match (exScene.intersect_scene
              ⟨exPoint, (exScene.light.position.sub exPoint).normalized⟩).intersections with
           | [] => false
           | hit :: _ => decide (hit.t < (exScene.light.position.sub exPoint).magnitude)) := rfl
    rw [hbody]
    simp only [exC1_v, exC1_dir, exC1_mag]
    rw [exC1_scene_inters]
    exact decide_eq_true (by norm_num)
  · intro o ho
    have : o = exSphereShadow := by simpa [exScene] using ho
    subst this
    rfl

/-- Claim C5 (amended): for a closed cylinder, `local_intersect` includes the
two cap-plane intersections whenever the cap point satisfies x²+z² ≤ radius²
— but only when the direction's horizontal part dx²+dz² is NOT numpy-close
to 0 (and |dy| is not numpy-close to 0); a ray parallel to the y axis
returns no intersections at all, caps included. -/
theorem cylinder_closed_caps (self : Shape) (radius minimum maximum : ℝ) (ray : Ray) :
    (|ray.dir.x ^ 2 + ray.dir.z ^ 2| ≤ NP_ATOL →
      cylinder_local_intersect self radius minimum maximum true ray = ⟨[]⟩) ∧
    (¬ |ray.dir.x ^ 2 + ray.dir.z ^ 2| ≤ NP_ATOL → ¬ |ray.dir.y| ≤ NP_ATOL →
      ((cylinder_check_cap radius ray ((minimum - ray.origin.y) / ray.dir.y) →
        (⟨(minimum - ray.origin.y) / ray.dir.y, self⟩ : Intersection) ∈
          (cylinder_local_intersect self radius minimum maximum true ray).intersections) ∧
       (cylinder_check_cap radius ray ((maximum - ray.origin.y) / ray.dir.y) →
        (⟨(maximum - ray.origin.y) / ray.dir.y, self⟩ : Intersection) ∈
          (cylinder_local_intersect self radius minimum maximum true ray).intersections))) := by
  constructor
  · intro ha
    simp only [cylinder_local_intersect]
    rw [if_pos ha]
  · intro ha hy
    have h0 : 0 ≤ ray.dir.x ^ 2 + ray.dir.z ^ 2 := by positivity
    have hapos : 0 < ray.dir.x ^ 2 + ray.dir.z ^ 2 := by
      rcases eq_or_lt_of_le h0 with heq | hlt
      · exfalso
        apply ha
        rw [← heq]
        simp only [abs_zero]
        norm_num [NP_ATOL]
      · exact hlt
    have hdisc : ∀ t : ℝ, cylinder_check_cap radius ray t →
        ¬ ((2 * ray.origin.x * ray.dir.x + 2 * ray.origin.z * ray.dir.z) ^ 2 -
            4 * (ray.dir.x ^ 2 + ray.dir.z ^ 2) *
              (ray.origin.x ^ 2 + ray.origin.z ^ 2 - radius ^ 2) < 0) := by
      intro t hcap
      simp only [cylinder_check_cap] at hcap
      have hq : (ray.dir.x ^ 2 + ray.dir.z ^ 2) * t ^ 2 +
          (2 * ray.origin.x * ray.dir.x + 2 * ray.origin.z * ray.dir.z) * t +
          (ray.origin.x ^ 2 + ray.origin.z ^ 2 - radius ^ 2) ≤ 0 := by nlinarith [hcap]
      have h5 : (ray.dir.x ^ 2 + ray.dir.z ^ 2) *
          ((ray.dir.x ^ 2 + ray.dir.z ^ 2) * t ^ 2 +
            (2 * ray.origin.x * ray.dir.x + 2 * ray.origin.z * ray.dir.z) * t +
            (ray.origin.x ^ 2 + ray.origin.z ^ 2 - radius ^ 2)) ≤ 0 :=
        mul_nonpos_of_nonneg_of_nonpos hapos.le hq
      push_neg
      nlinarith [h5, sq_nonneg ((ray.dir.x ^ 2 + ray.dir.z ^ 2) * t +
        (ray.origin.x * ray.dir.x + ray.origin.z * ray.dir.z))]
    have hcaps : ∀ t : ℝ, cylinder_check_cap radius ray t →
        (t = (minimum - ray.origin.y) / ray.dir.y ∨ t = (maximum - ray.origin.y) / ray.dir.y) →
        (⟨t, self⟩ : Intersection) ∈
          cylinder_intersect_caps self radius minimum maximum true ray := by
      intro t hcap hor
      simp only [cylinder_intersect_caps]
      rw [if_neg (by
        rintro (hcl | hdy)
        · exact hcl trivial
        · exact hy hdy)]
      rcases hor with rfl | rfl
      · rw [if_pos hcap]
        exact List.mem_append.mpr (Or.inl (List.mem_singleton.mpr rfl))
      · refine List.mem_append.mpr (Or.inr ?_)
        rw [if_pos hcap]
        exact List.mem_singleton.mpr rfl
    have hmain : ∀ t : ℝ, cylinder_check_cap radius ray t →
        (t = (minimum - ray.origin.y) / ray.dir.y ∨ t = (maximum - ray.origin.y) / ray.dir.y) →
        (⟨t, self⟩ : Intersection) ∈
          (cylinder_local_intersect self radius minimum maximum true ray).intersections := by
      intro t hcap hor
      simp only [cylinder_local_intersect]
      rw [if_neg ha, if_neg (hdisc t hcap)]
      refine List.mem_append.mpr (Or.inr ?_)
      exact hcaps t hcap hor
    exact ⟨fun hcap => hmain _ hcap (Or.inl rfl), fun hcap => hmain _ hcap (Or.inr rfl)⟩

/-- Witness for C5 at a concrete closed cylinder (1 ≤ y ≤ 2): the parallel
ray yields the empty result; a slanted ray picks up both cap hits. -/
theorem cylinder_closed_caps_witness :
    cylinder_local_intersect exCylinder 1 1 2 true exRayParallel = ⟨[]⟩ ∧
    (⟨1, exCylinder⟩ : Intersection) ∈
      (cylinder_local_intersect exCylinder 1 1 2 true exRaySlant).intersections ∧
    (⟨2, exCylinder⟩ : Intersection) ∈
      (cylinder_local_intersect exCylinder 1 1 2 true exRaySlant).intersections := by
  refine ⟨(cylinder_closed_caps exCylinder 1 1 2 exRayParallel).1 ?_, ?_, ?_⟩
  · norm_num [exRayParallel, NP_ATOL]
  · have h := ((cylinder_closed_caps exCylinder 1 1 2 exRaySlant).2
        (by norm_num [exRaySlant, NP_ATOL, abs_of_nonneg]) (by norm_num [exRaySlant, NP_ATOL])).1
      (by norm_num [cylinder_check_cap, exRaySlant])
    have ht : ((1 : ℝ) - exRaySlant.origin.y) / exRaySlant.dir.y = 1 := by
      norm_num [exRaySlant]
    rwa [ht] at h
  · have h := ((cylinder_closed_caps exCylinder 1 1 2 exRaySlant).2
        (by norm_num [exRaySlant, NP_ATOL, abs_of_nonneg]) (by norm_num [exRaySlant, NP_ATOL])).2
      (by norm_num [cylinder_check_cap, exRaySlant])
    have ht : ((2 : ℝ) - exRaySlant.origin.y) / exRaySlant.dir.y = 2 := by
      norm_num [exRaySlant]
    rwa [ht] at h

/-- Claim C5 fails as stated for rays parallel to the y axis: the direction
(0,1,0) has nonzero y component and the y=minimum cap point satisfies
x²+z² ≤ 1, yet the closed cylinder's `local_intersect` returns no
intersections (it returns early without consulting the caps). -/
theorem cylinder_parallel_ray_misses_caps :
    cylinder_local_intersect exCylinder 1 1 2 true exRayParallel = ⟨[]⟩ ∧
    cylinder_check_cap 1 exRayParallel
      ((1 - exRayParallel.origin.y) / exRayParallel.dir.y) := by
  constructor
  · simp only [cylinder_local_intersect]
    rw [if_pos (by norm_num [exRayParallel, NP_ATOL])]
  · norm_num [cylinder_check_cap, exRayParallel]

/-- Claim C6 (amended): `at_object` converts the world point through the
shape's OWN inverse transform only, then the pattern's inverse; this agrees
with the claimed `at(pattern_inverse · world_to_object(shape, p))` exactly
when the shape has no parent — a parent group's transform does not
participate. -/
theorem at_object_eq_world_to_object_of_parentless (pat : Pattern) (obj : Shape)
    (p : Point3) (h : obj.parent = none) :
    pat.at_object obj p = pat.at (pat.transform.inverse.mulPoint (world_to_object obj p)) := by
  cases obj with
  | mk oid tr mat cs par kind =>
      have hpar : par = none := h
      subst hpar
      rfl

/-- Witness for C6 at a concrete parentless shape. -/
theorem at_object_eq_world_to_object_of_parentless_witness :
    exStripe.at_object exShapeA ⟨1, 2, 3⟩
      = exStripe.at (exStripe.transform.inverse.mulPoint (world_to_object exShapeA ⟨1, 2, 3⟩)) :=
  at_object_eq_world_to_object_of_parentless exStripe exShapeA ⟨1, 2, 3⟩ rfl

theorem inverse_scaling_2 :
    (Matrix4.scaling 2 2 2).inverse = Matrix4.scaling (1/2) (1/2) (1/2) := by
  have hdet : (Matrix4.scaling 2 2 2).determinant = 8 := by rw [det_scaling]; norm_num
  ext i j
  show (Matrix4.scaling 2 2 2).cofactor j i / (Matrix4.scaling 2 2 2).determinant = _
  rw [hdet]
  fin_cases i <;> fin_cases j <;>
    (simp only [Matrix4.cofactor, minor4_eq, Matrix.det_fin_three, Matrix.submatrix_apply,
      Matrix.of_apply]
     simp +decide [Fin.succAbove, Fin.lt_def, Matrix4.scaling]
     try norm_num)

theorem exC6_w2o : world_to_object exChild exPatternPoint = ⟨1, 0, 0⟩ := by
  show Matrix4.identity.inverse.mulPoint
    ((Matrix4.scaling 2 2 2).inverse.mulPoint exPatternPoint) = _
  rw [Matrix4.inverse_identity, inverse_scaling_2, mulPoint_identity]
  ext <;> simp +decide [Matrix4.mulPoint, Matrix4.scaling, exPatternPoint] <;> try norm_num

theorem exC6_lhs : exStripe.at_object exChild exPatternPoint = Color.make 1 1 1 := by
  show exStripe.at (Matrix4.identity.inverse.mulPoint
    (Matrix4.identity.inverse.mulPoint exPatternPoint)) = _
  rw [Matrix4.inverse_identity, mulPoint_identity, mulPoint_identity]
  show (if (⌊(2:ℝ)⌋ : ℤ) % 2 = 0 then Color.make 1 1 1 else Color.make 0 0 0) = _
  rw [if_pos (by norm_num)]

/-- Claim C6 fails as stated for a shape inside a transformed group: with the
group scaled by 2 and the shape's own transform the identity, `at_object`
samples the striped pattern at x = 2 (white) while the claimed
world_to_object composition samples it at x = 1 (black). -/
theorem at_object_ignores_parent_transform :
    exStripe.at_object exChild exPatternPoint
      ≠ exStripe.at (exStripe.transform.inverse.mulPoint (world_to_object exChild exPatternPoint)) := by
  have hrhs : exStripe.at (exStripe.transform.inverse.mulPoint
      (world_to_object exChild exPatternPoint)) = Color.make 0 0 0 := by
    rw [exC6_w2o]
    show Pattern.at _ (Matrix4.identity.inverse.mulPoint ⟨1, 0, 0⟩) = _
    rw [Matrix4.inverse_identity, mulPoint_identity]
    show (if (⌊(1:ℝ)⌋ : ℤ) % 2 = 0 then Color.make 1 1 1 else Color.make 0 0 0) = _
    rw [if_neg (by norm_num)]
  rw [exC6_lhs, hrhs]
  intro h
  have hr := congrArg Color.r h
  norm_num [Color.make, clamp01] at hr

end

end PyTracer
